import Mathlib

/-!
Shallow embedding of the caching / admission-control core of the repository
(`src/cache_service.py`).  The synchronous service `SyncTaoStatsCacheService`
is modelled as a pure state-passing program: every method that reads the wall
clock (`int(time.time() * 1000)`) receives the current time `now : Int`
(milliseconds) as an explicit argument, and every method that mutates `self`
returns the updated state.  Python dictionaries become association lists with
unique keys (`dictGet` / `dictInsert` / deletion by filtering), a fetch
operation (`fetch_fn`) becomes its outcome `Except Nat A` (an opaque error
code on failure), and a raised exception becomes an `Except.error` result.
-/

set_option autoImplicit false

namespace TaoCache

/-- `CacheEntry` from `cache_service.py`: stored `data`, creation `timestamp`
and `expires_at = timestamp + ttl`, all in milliseconds. -/
structure CacheEntry (A : Type) where
  data : A
  timestamp : Int
  expires_at : Int
deriving DecidableEq

/-- `CacheEntry.is_expired`: `int(time.time() * 1000) > self.expires_at`,
with the clock reading passed in as `now`. -/
def is_expired (now : Int) {A : Type} (e : CacheEntry A) : Bool :=
  decide (now > e.expires_at)

/-- `self.window_size_ms = 60 * 1000`. -/
def windowSizeMs : Int := 60000

/-- Lookup in a Python dict modelled as an association list
(`self.cache.get(key)` / `key in d`). -/
def dictGet {B : Type} (m : List (String × B)) (k : String) : Option B :=
  match m with
  | [] => none
  | p :: rest => if p.1 = k then some p.2 else dictGet rest k

/-- Assignment `d[key] = v` on a Python dict: replace the binding if the key
is present, otherwise append it (Python dicts preserve insertion order). -/
def dictInsert {B : Type} (m : List (String × B)) (k : String) (v : B) :
    List (String × B) :=
  match m with
  | [] => [(k, v)]
  | p :: rest => if p.1 = k then (k, v) :: rest else p :: dictInsert rest k v

/-- Membership test on the list of pending keys (`key in self.pending_requests`). -/
def listElem (k : String) : List String → Bool
  | [] => false
  | x :: rest => if x = k then true else listElem k rest

/-- Mutable state of `SyncTaoStatsCacheService`: the entry store `cache`,
the pending-request key set, the call ledger `request_timestamps` and the
configured limit `minute_request_limit`.  (`cache_path` and
`persistent_cache_enabled` only steer file I/O and are not part of the
logical state.) -/
structure SyncState (A : Type) where
  cache : List (String × CacheEntry A)
  pending_requests : List String
  request_timestamps : List Int
  minute_request_limit : Nat
deriving DecidableEq

/-- Options dictionary of `with_cache` with the defaults from the source
(`ttl` 3 600 000 ms, `force_refresh` false, `fallback_to_cache` true,
`critical` false, `fail_silently` false). -/
structure CacheOptions where
  ttl : Int := 3600000
  force_refresh : Bool := false
  fallback_to_cache : Bool := true
  critical : Bool := false
  fail_silently : Bool := false
deriving DecidableEq

/-- The exceptions `with_cache` can raise: the rate-limit `Exception`
(its message carries the computed wait time) or a propagated upstream
fetch failure (opaque error code). -/
inductive CacheError where
  | rateLimitExceeded (waitTimeMs : Int)
  | upstream (err : Nat)
deriving DecidableEq

/-- `_cleanup_expired_timestamps`: keep exactly the timestamps `t` with
`now - t < window_size_ms`. -/
def cleanup_expired_timestamps (now : Int) (ts : List Int) : List Int :=
  ts.filter (fun t => decide (now - t < windowSizeMs))

/-- `_has_reached_rate_limit`: purge the ledger, then compare its length
with `minute_request_limit`.  Returns the purged state and the flag. -/
def has_reached_rate_limit {A : Type} (now : Int) (st : SyncState A) :
    SyncState A × Bool :=
  let st1 := { st with
    request_timestamps := cleanup_expired_timestamps now st.request_timestamps }
  (st1, decide (st1.minute_request_limit ≤ st1.request_timestamps.length))

/-- `_record_request`: append the current time to the ledger. -/
def record_request {A : Type} (now : Int) (st : SyncState A) : SyncState A :=
  { st with request_timestamps := st.request_timestamps ++ [now] }

/-- `_get_wait_time_ms`: 0 on an empty ledger; otherwise
`max(0, sorted(ts)[0] + window_size_ms - now)`.  The head of the sorted list
is the numeric minimum, computed here by folding `min` over the tail. -/
def get_wait_time_ms (now : Int) (ts : List Int) : Int :=
  match ts with
  | [] => 0
  | t :: rest =>
    let oldest := rest.foldl min t
    max 0 (oldest + windowSizeMs - now)

/-- `self.pending_requests[key] = True`: mark the key pending (a dict key is
stored once). -/
def markPending {A : Type} (st : SyncState A) (key : String) : SyncState A :=
  if listElem key st.pending_requests then st
  else { st with pending_requests := st.pending_requests ++ [key] }

/-- The `finally` block: `if key in self.pending_requests: del ...`. -/
def clearPending {A : Type} (st : SyncState A) (key : String) : SyncState A :=
  { st with pending_requests := st.pending_requests.filter (fun x => !decide (x = key)) }

instance exceptDecEq {E A : Type} [DecidableEq E] [DecidableEq A] :
    DecidableEq (Except E A) := fun x y =>
  match x, y with
  | Except.ok a, Except.ok b =>
    if h : a = b then Decidable.isTrue (by rw [h])
    else Decidable.isFalse (by intro hc; cases hc; exact h rfl)
  | Except.ok _, Except.error _ => Decidable.isFalse (by intro hc; cases hc)
  | Except.error _, Except.ok _ => Decidable.isFalse (by intro hc; cases hc)
  | Except.error a, Except.error b =>
    if h : a = b then Decidable.isTrue (by rw [h])
    else Decidable.isFalse (by intro hc; cases hc; exact h rfl)

/-- Observable outcome of one `with_cache` call: the returned value
(`Except.ok none` models Python returning `None`), the post-call service
state, whether `_persist_cache` ran, and whether the fetch step
(`_record_request` + `fetch_fn()`) was entered. -/
structure WithCacheResult (A : Type) where
  result : Except CacheError (Option A)
  state : SyncState A
  persisted : Bool
  fetched : Bool
deriving DecidableEq

/-- Lines 505-516 of the source: compute the wait time, then either return
`None` (`fail_silently`) or raise the rate-limit exception. -/
def fail_branch {A : Type} (st : SyncState A) (now : Int) (options : CacheOptions) :
    WithCacheResult A :=
  let wait_time := get_wait_time_ms now st.request_timestamps
  if options.fail_silently then ⟨Except.ok none, st, false, false⟩
  else ⟨Except.error (CacheError.rateLimitExceeded wait_time), st, false, false⟩

/-- Lines 518-549 of the source: mark the key pending, record the request,
run the fetch; on success store a fresh entry and persist, on failure fall
back to the (possibly expired) entry captured at call start when permitted,
else re-raise.  The `finally` clean-up of the pending key happens on every
path. -/
def do_fetch {A : Type} (st : SyncState A) (now : Int) (key : String)
    (fetch_fn : Except Nat A) (options : CacheOptions)
    (cached_entry : Option (CacheEntry A)) : WithCacheResult A :=
  let st2 := markPending st key
  let st3 := record_request now st2
  match fetch_fn with
  | Except.ok result =>
    let st4 := { st3 with
      cache := dictInsert st3.cache key ⟨result, now, now + options.ttl⟩ }
    ⟨Except.ok (some result), clearPending st4 key, true, true⟩
  | Except.error err =>
    let st5 := clearPending st3 key
    match cached_entry with
    | some ce =>
      if options.fallback_to_cache then ⟨Except.ok (some ce.data), st5, false, true⟩
      else ⟨Except.error (CacheError.upstream err), st5, false, true⟩
    | none => ⟨Except.error (CacheError.upstream err), st5, false, true⟩

/-- Lines 494-516 of the source, reached after the pending and cache-hit
checks: purge the ledger and test the limit; when at limit and not critical,
serve the stale entry (if any and `fallback_to_cache`) or take `fail_branch`;
otherwise proceed to the fetch step. -/
def rate_or_fetch {A : Type} (st : SyncState A) (now : Int) (key : String)
    (fetch_fn : Except Nat A) (options : CacheOptions)
    (cached_entry : Option (CacheEntry A)) : WithCacheResult A :=
  let p := has_reached_rate_limit now st
  let st1 := p.1
  if p.2 && !options.critical then
    match cached_entry with
    | some e =>
      if options.fallback_to_cache then ⟨Except.ok (some e.data), st1, false, false⟩
      else fail_branch st1 now options
    | none => fail_branch st1 now options
  else
    do_fetch st1 now key fetch_fn options cached_entry

/-- `SyncTaoStatsCacheService.with_cache`: pending check (the synchronous
variant returns `None` instead of joining), cache-hit check, then
`rate_or_fetch`.  The trailing `except` clause of the source only logs and
re-raises, so it is the identity on outcomes. -/
def with_cache {A : Type} (st : SyncState A) (now : Int) (key : String)
    (fetch_fn : Except Nat A) (options : CacheOptions) : WithCacheResult A :=
  if listElem key st.pending_requests && !options.force_refresh then
    ⟨Except.ok none, st, false, false⟩
  else
    match dictGet st.cache key with
    | some e =>
      if !options.force_refresh && !is_expired now e then
        ⟨Except.ok (some e.data), st, false, false⟩
      else rate_or_fetch st now key fetch_fn options (some e)
    | none => rate_or_fetch st now key fetch_fn options none

/-- `invalidate`: delete the key if present.  The Python method is annotated
`-> None` and has no `return` statement, so its return value is always
`None`, modelled as `(none : Option Bool)`. -/
def invalidate {A : Type} (st : SyncState A) (key : String) :
    Option Bool × SyncState A :=
  if (dictGet st.cache key).isSome then
    (none, { st with cache := st.cache.filter (fun p => !decide (p.1 = key)) })
  else (none, st)

/-- Loop body of `invalidate_by_prefix`: walk the key list, delete every key
that starts with the given string, count the deletions. -/
def remove_matching {A : Type} (pfx : String) :
    List (String × CacheEntry A) → Nat × List (String × CacheEntry A)
  | [] => (0, [])
  | p :: rest =>
    let r := remove_matching pfx rest
    if pfx.isPrefixOf p.1 then (r.1 + 1, r.2) else (r.1, p :: r.2)

/-- `invalidate_by_prefix`: remove every entry whose key starts with `pfx`
(`key.startswith(prefix)`) and return the number removed. -/
def invalidate_by_prefix {A : Type} (st : SyncState A) (pfx : String) :
    Nat × SyncState A :=
  let r := remove_matching pfx st.cache
  (r.1, { st with cache := r.2 })

/-- The JSON document written by `_persist_cache` and read by
`_initialize_cache`: `timestamp`, `requestTimestamps`, `entries`. -/
structure CacheFileData (A : Type) where
  timestamp : Int
  requestTimestamps : List Int
  entries : List (String × CacheEntry A)
deriving DecidableEq

/-- `_persist_cache`: dump the full ledger and entry store (no filtering on
write). -/
def persist_cache {A : Type} (st : SyncState A) (now : Int) : CacheFileData A :=
  ⟨now, st.request_timestamps, st.cache⟩

/-- Entry-restoration loop of `_initialize_cache`: insert each persisted
entry into the (initially empty) store unless `is_expired` at load time. -/
def restore_entries {A : Type} (now : Int) :
    List (String × CacheEntry A) → List (String × CacheEntry A) →
    List (String × CacheEntry A)
  | acc, [] => acc
  | acc, p :: rest =>
    if is_expired now p.2 then restore_entries now acc rest
    else restore_entries now (dictInsert acc p.1 p.2) rest

/-- `_initialize_cache` on a successfully parsed file: timestamps older than
the window are dropped, expired entries are dropped, pending requests start
empty. -/
def initialize_cache {A : Type} (cd : CacheFileData A) (now : Int)
    (limit : Nat) : SyncState A :=
  { cache := restore_entries now [] cd.entries
  , pending_requests := []
  , request_timestamps :=
      cd.requestTimestamps.filter (fun t => decide (now - t < windowSizeMs))
  , minute_request_limit := limit }

/-- Concrete service state for the rate-limit scenario of §8 of the spec:
five calls recorded at t = 0..4 ms, limit 5, empty entry store. -/
def stC4 : SyncState Nat := ⟨[], [], [0, 1, 2, 3, 4], 5⟩

/-- Concrete empty service state with the default limit 5. -/
def stEmpty : SyncState Nat := ⟨[], [], [], 5⟩

/-- Concrete state holding one live entry for key `"k"` (expires at 100 ms)
and one ledger timestamp. -/
def st10 : SyncState Nat := ⟨[("k", ⟨42, 0, 100⟩)], [], [3], 5⟩

/-- Concrete state holding one entry for key `"k"`. -/
def stWithK : SyncState Nat := ⟨[("k", ⟨0, 0, 100⟩)], [], [], 5⟩

/-- Concrete state for the snapshot round-trip: entry `"a"` expires at 100,
entry `"b"` at 500, ledger `[10, 400]`. -/
def stRound : SyncState Nat := ⟨[("a", ⟨1, 0, 100⟩), ("b", ⟨2, 0, 500⟩)], [], [10, 400], 5⟩

/-- Concrete state for the stale-on-error scenario of §8 of the spec: key
`"p"` cached with ttl 1000 ms at t = 0, empty ledger. -/
def stScen2 : SyncState Nat := ⟨[("p", ⟨7, 0, 1000⟩)], [], [], 5⟩

theorem dictGet_filter_ne {A : Type} (l : List (String × A)) (key : String) :
    dictGet (l.filter (fun p => !decide (p.1 = key))) key = none := by
  induction l with
  | nil => rfl
  | cons p rest ih =>
    by_cases h : p.1 = key
    · simp [List.filter_cons, h, ih]
    · simp [List.filter_cons, h, dictGet, ih]

theorem dictGet_append_of_none {A : Type} {l1 : List (String × A)}
    (l2 : List (String × A)) (k : String) (h : dictGet l1 k = none) :
    dictGet (l1 ++ l2) k = dictGet l2 k := by
  induction l1 with
  | nil => rfl
  | cons p rest ih =>
    by_cases hk : p.1 = k
    · simp [dictGet, hk] at h
    · rw [List.cons_append, dictGet, if_neg hk]
      rw [dictGet, if_neg hk] at h
      exact ih h

theorem dictInsert_of_none {A : Type} {m : List (String × A)} {k : String}
    (v : A) (h : dictGet m k = none) : dictInsert m k v = m ++ [(k, v)] := by
  induction m with
  | nil => rfl
  | cons p rest ih =>
    by_cases hk : p.1 = k
    · simp [dictGet, hk] at h
    · rw [dictGet, if_neg hk] at h
      rw [dictInsert, if_neg hk, ih h, List.cons_append]

theorem foldl_min_pick (ts : List Int) :
    ∀ t : Int, ts.foldl min t = t ∨ ts.foldl min t ∈ ts := by
  induction ts with
  | nil => intro t; left; rfl
  | cons x rest ih =>
    intro t
    rcases ih (min t x) with h | h
    · rcases min_choice t x with hm | hm
      · left; rw [List.foldl_cons, h, hm]
      · right; rw [List.foldl_cons, h, hm]; exact List.mem_cons_self _ _
    · right; exact List.mem_cons_of_mem _ (by rw [List.foldl_cons]; exact h)

theorem foldl_min_le_init (ts : List Int) : ∀ t : Int, ts.foldl min t ≤ t := by
  induction ts with
  | nil => intro t; exact le_refl t
  | cons x rest ih =>
    intro t
    calc (x :: rest).foldl min t = rest.foldl min (min t x) := rfl
    _ ≤ min t x := ih _
    _ ≤ t := min_le_left _ _

theorem foldl_min_le_mem (ts : List Int) :
    ∀ (t x : Int), x ∈ ts → ts.foldl min t ≤ x := by
  induction ts with
  | nil => intro t x hx; cases hx
  | cons y rest ih =>
    intro t x hx
    rcases List.mem_cons.mp hx with h | h
    · subst h
      calc (x :: rest).foldl min t = rest.foldl min (min t x) := rfl
      _ ≤ min t x := foldl_min_le_init rest _
      _ ≤ x := min_le_right _ _
    · exact ih _ _ h

theorem remove_matching_spec {A : Type} (pfx : String)
    (l : List (String × CacheEntry A)) :
    remove_matching pfx l
      = ((l.filter (fun p => pfx.isPrefixOf p.1)).length,
         l.filter (fun p => !pfx.isPrefixOf p.1)) := by
  induction l with
  | nil => rfl
  | cons p rest ih =>
    by_cases h : pfx.isPrefixOf p.1 <;>
      simp [remove_matching, List.filter_cons, h, ih]

theorem restore_entries_eq {A : Type} (now : Int) :
    ∀ (rest acc : List (String × CacheEntry A)),
      (rest.map Prod.fst).Nodup →
      (∀ p ∈ rest, dictGet acc p.1 = none) →
      restore_entries now acc rest
        = acc ++ rest.filter (fun p => !is_expired now p.2) := by
  intro rest
  induction rest with
  | nil => intro acc _ _; simp [restore_entries]
  | cons p rest ih =>
    intro acc hnd hdis
    have hnd0 : p.1 ∉ rest.map Prod.fst ∧ (rest.map Prod.fst).Nodup := by
      rw [List.map_cons] at hnd
      exact List.nodup_cons.mp hnd
    by_cases hexp : is_expired now p.2 = true
    · rw [restore_entries, if_pos hexp,
        ih acc hnd0.2 (fun q hq => hdis q (List.mem_cons_of_mem _ hq)),
        List.filter_cons]
      simp [hexp]
    · have hacc : dictGet acc p.1 = none := hdis p (List.mem_cons_self _ _)
      rw [restore_entries, if_neg hexp, dictInsert_of_none p.2 hacc,
        ih (acc ++ [(p.1, p.2)]) hnd0.2 ?_, List.filter_cons]
      · simp [hexp, List.append_assoc]
      · intro q hq
        rw [dictGet_append_of_none _ _ (hdis q (List.mem_cons_of_mem _ hq))]
        have hne : ¬ (p.1 = q.1) := by
          intro he
          exact hnd0.1 (he ▸ List.mem_map_of_mem Prod.fst hq)
        simp [dictGet, hne]

/-- C6: `_has_reached_rate_limit` first purges every timestamp `t` with
`now - t ≥ W` (keeping exactly those with `now - t < W`) and then returns
true iff the count of remaining timestamps is at least
`minute_request_limit`; with limit 0 it returns true on every call. -/
theorem c6_rate_limit_check {A : Type} (st : SyncState A) (now : Int) :
    (has_reached_rate_limit now st).1.request_timestamps
        = st.request_timestamps.filter (fun t => decide (now - t < windowSizeMs))
      ∧ ((has_reached_rate_limit now st).2 = true ↔
          st.minute_request_limit ≤
            (st.request_timestamps.filter
              (fun t => decide (now - t < windowSizeMs))).length)
      ∧ (st.minute_request_limit = 0 →
          (has_reached_rate_limit now st).2 = true) := by
  refine ⟨rfl, ?_, ?_⟩
  · simp [has_reached_rate_limit, cleanup_expired_timestamps]
  · intro h
    simp [has_reached_rate_limit, h]

/-- C6 witness: with limit 0 the check fires even on a non-empty ledger. -/
theorem c6_rate_limit_check_witness :
    (has_reached_rate_limit 10 (⟨[], [], [3], 0⟩ : SyncState Nat)).2 = true :=
  (c6_rate_limit_check (⟨[], [], [3], 0⟩ : SyncState Nat) 10).2.2 rfl

/-- C8 counterexample: `invalidate` on a state that does hold an entry for
`"k"` returns `None` (the Python method is `-> None`), not `true`, so
"returns true iff a prior entry existed" fails. -/
theorem c8_invalidate_counterexample :
    (dictGet stWithK.cache "k").isSome = true
      ∧ ¬ ((invalidate stWithK "k").1 = some true) := by
  exact ⟨by decide, by decide⟩

/-- C8 amended: `invalidate` always returns the absent value `None`
(regardless of whether an entry existed), and in either case the key is
absent afterwards. -/
theorem c8_invalidate_amended {A : Type} (st : SyncState A) (key : String) :
    (invalidate st key).1 = none
      ∧ dictGet (invalidate st key).2.cache key = none := by
  by_cases h : (dictGet st.cache key).isSome
  · refine ⟨by simp [invalidate, h], ?_⟩
    simp only [invalidate, h, if_pos]
    exact dictGet_filter_ne st.cache key
  · have hn : dictGet st.cache key = none := Option.not_isSome_iff_eq_none.mp h
    refine ⟨by simp [invalidate, h], ?_⟩
    simp [invalidate, h, hn]

/-- C9: `invalidate_by_prefix` removes exactly the keys that start with the
given string (every other key survives with its entry unchanged) and
returns the number of keys removed. -/
theorem c9_invalidate_by_prefix_exact {A : Type} (st : SyncState A)
    (pfx : String) :
    ( invalidate_by_prefix st pfx).1
        = (st.cache.filter (fun p => pfx.isPrefixOf p.1)).length
      ∧ ( invalidate_by_prefix st pfx).2.cache
        = st.cache.filter (fun p => !pfx.isPrefixOf p.1)
      ∧ ( invalidate_by_prefix st pfx).2.pending_requests = st.pending_requests
      ∧ ( invalidate_by_prefix st pfx).2.request_timestamps
        = st.request_timestamps := by
  unfold invalidate_by_prefix
  rw [remove_matching_spec]
  exact ⟨rfl, rfl, rfl, rfl⟩

/-- C10: a cache hit (no pending request, live entry, no forced refresh)
returns the stored value and leaves the whole service state unchanged:
no timestamp recorded, ledger not purged, no snapshot write, no fetch. -/
theorem c10_cache_hit_frame {A : Type} (st : SyncState A) (now : Int)
    (key : String) (fetch_fn : Except Nat A) (options : CacheOptions)
    (e : CacheEntry A)
    (hp : listElem key st.pending_requests = false)
    (hc : dictGet st.cache key = some e)
    (hl : is_expired now e = false)
    (hf : options.force_refresh = false) :
    with_cache st now key fetch_fn options
      = ⟨Except.ok (some e.data), st, false, false⟩ := by
  simp [with_cache, hp, hc, hl, hf]

/-- C10 witness: a concrete hit at t = 50 on an entry expiring at t = 100. -/
theorem c10_cache_hit_frame_witness :
    with_cache st10 50 "k" (Except.error 9) {}
      = ⟨Except.ok (some 42), st10, false, false⟩ :=
  c10_cache_hit_frame st10 50 "k" (Except.error 9) {} ⟨42, 0, 100⟩
    rfl rfl (by decide) rfl

/-- C4: `_get_wait_time_ms` returns 0 on an empty ledger, and otherwise
`max(0, m + W - now)` where `m` is the numeric minimum (the oldest
timestamp) of the ledger; and in the spec scenario (5 calls recorded at
t = 0..4 ms, limit 5, non-critical call at t = 10 ms on a key with no
entry, `fail_silently` false) the call fails with a rate-limit error
carrying a wait time of 59 990 ms, without fetching. -/
theorem c4_wait_time_spec :
    (∀ now : Int, get_wait_time_ms now [] = 0)
    ∧ (∀ (now t : Int) (ts : List Int), ∃ m : Int,
        m ∈ t :: ts ∧ (∀ x ∈ t :: ts, m ≤ x)
          ∧ get_wait_time_ms now (t :: ts) = max 0 (m + windowSizeMs - now))
    ∧ (with_cache stC4 10 "k7" (Except.ok 0) {}).result
        = Except.error (CacheError.rateLimitExceeded 59990)
    ∧ (with_cache stC4 10 "k7" (Except.ok 0) {}).fetched = false := by
  refine ⟨fun _ => rfl, ?_, by decide, by decide⟩
  intro now t ts
  refine ⟨ts.foldl min t, ?_, ?_, rfl⟩
  · rcases foldl_min_pick ts t with h | h
    · rw [h]; exact List.mem_cons_self _ _
    · exact List.mem_cons_of_mem _ h
  · intro x hx
    rcases List.mem_cons.mp hx with h | h
    · rw [h]; exact foldl_min_le_init ts t
    · exact foldl_min_le_mem ts t x h

/-- C4 witness: the returned wait time is determined by the numeric minimum
of a concrete unsorted ledger. -/
theorem c4_wait_time_spec_witness :
    ∃ m : Int, m ∈ [(5 : Int), 1, 9] ∧ (∀ x ∈ [(5 : Int), 1, 9], m ≤ x)
      ∧ get_wait_time_ms 0 [5, 1, 9] = max 0 (m + windowSizeMs - 0) :=
  c4_wait_time_spec.2.1 0 5 [1, 9]

/-- C1: a non-forced call with no live entry that hits the rate limit while
not critical is terminal without fetching: it serves the stale entry when
one exists and `fallback_to_cache` holds, else returns `None` when
`fail_silently`, else raises the rate-limit error carrying the wait time
computed on the purged ledger.  (`pending_requests` is empty whenever the
synchronous `with_cache` is entered — pending keys live only inside a
single call — so the first hypothesis always holds at call sites.) -/
theorem c1_rate_limited_terminal {A : Type} (st : SyncState A) (now : Int)
    (key : String) (fetch_fn : Except Nat A) (options : CacheOptions)
    (hp : listElem key st.pending_requests = false)
    (hf : options.force_refresh = false)
    (hnl : ∀ e : CacheEntry A, dictGet st.cache key = some e →
      is_expired now e = true)
    (hl : st.minute_request_limit ≤
      (cleanup_expired_timestamps now st.request_timestamps).length)
    (hc : options.critical = false) :
    (∀ e : CacheEntry A, dictGet st.cache key = some e →
        options.fallback_to_cache = true →
        (with_cache st now key fetch_fn options).result
          = Except.ok (some e.data))
    ∧ ((dictGet st.cache key = none ∨ options.fallback_to_cache = false) →
        options.fail_silently = true →
        (with_cache st now key fetch_fn options).result = Except.ok none)
    ∧ ((dictGet st.cache key = none ∨ options.fallback_to_cache = false) →
        options.fail_silently = false →
        (with_cache st now key fetch_fn options).result
          = Except.error (CacheError.rateLimitExceeded
              (get_wait_time_ms now
                (cleanup_expired_timestamps now st.request_timestamps))))
    ∧ (with_cache st now key fetch_fn options).fetched = false := by
  have hl2 : st.minute_request_limit ≤
      (st.request_timestamps.filter (fun t => decide (now - t < windowSizeMs))).length := by
    simpa [cleanup_expired_timestamps] using hl
  rcases hcache : dictGet st.cache key with _ | e
  · refine ⟨?_, ?_, ?_, ?_⟩
    · intro e he
      simp at he
    · intro _ hsil
      simp [with_cache, hp, hcache, rate_or_fetch, has_reached_rate_limit,
        cleanup_expired_timestamps, hl2, hc, fail_branch, hsil]
    · intro _ hsil
      simp [with_cache, hp, hcache, rate_or_fetch, has_reached_rate_limit,
        cleanup_expired_timestamps, hl2, hc, fail_branch, hsil]
    · cases hsil : options.fail_silently <;>
        simp [with_cache, hp, hcache, rate_or_fetch, has_reached_rate_limit,
          cleanup_expired_timestamps, hl2, hc, fail_branch, hsil]
  · have hexp : is_expired now e = true := hnl e hcache
    refine ⟨?_, ?_, ?_, ?_⟩
    · intro e2 he2 hfb
      cases he2
      simp [with_cache, hp, hcache, hf, hexp, rate_or_fetch,
        has_reached_rate_limit, cleanup_expired_timestamps, hl2, hc, hfb]
    · rintro (he | hfb) hsil
      · simp at he
      · simp [with_cache, hp, hcache, hf, hexp, rate_or_fetch,
          has_reached_rate_limit, cleanup_expired_timestamps, hl2, hc, hfb,
          fail_branch, hsil]
    · rintro (he | hfb) hsil
      · simp at he
      · simp [with_cache, hp, hcache, hf, hexp, rate_or_fetch,
          has_reached_rate_limit, cleanup_expired_timestamps, hl2, hc, hfb,
          fail_branch, hsil]
    · cases hfb : options.fallback_to_cache <;>
        cases hsil : options.fail_silently <;>
        simp [with_cache, hp, hcache, hf, hexp, rate_or_fetch,
          has_reached_rate_limit, cleanup_expired_timestamps, hl2, hc, hfb,
          fail_branch, hsil]

/-- C1 witness: at the spec's rate-limit scenario state (5 recorded calls,
limit 5) a non-critical default-option call on a key with no entry raises
the rate-limit error with the computed wait time. -/
theorem c1_rate_limited_terminal_witness :
    (with_cache stC4 10 "kw" (Except.ok 0) {}).result
      = Except.error (CacheError.rateLimitExceeded
          (get_wait_time_ms 10
            (cleanup_expired_timestamps 10 stC4.request_timestamps))) :=
  ((c1_rate_limited_terminal stC4 10 "kw" (Except.ok 0) {} rfl rfl
      (fun _ he => nomatch he) (by decide) rfl).2.2.1 (Or.inl rfl) rfl)

/-- C2: when a call reaches the fetch step and the fetch fails, the stale
entry captured at call start (even expired, including under
`force_refresh`) is served when it exists and `fallback_to_cache` holds;
otherwise the upstream failure is propagated unchanged. -/
theorem c2_fetch_failure_fallback {A : Type} (st : SyncState A) (now : Int)
    (key : String) (err : Nat) (options : CacheOptions)
    (hp : listElem key st.pending_requests = false ∨
      options.force_refresh = true)
    (hnohit : ∀ e : CacheEntry A, dictGet st.cache key = some e →
      options.force_refresh = true ∨ is_expired now e = true)
    (hAdm : (cleanup_expired_timestamps now st.request_timestamps).length
        < st.minute_request_limit ∨ options.critical = true) :
    (∀ ce : CacheEntry A, dictGet st.cache key = some ce →
        options.fallback_to_cache = true →
        (with_cache st now key (Except.error err) options).result
          = Except.ok (some ce.data))
    ∧ ((dictGet st.cache key = none ∨ options.fallback_to_cache = false) →
        (with_cache st now key (Except.error err) options).result
          = Except.error (CacheError.upstream err))
    ∧ (with_cache st now key (Except.error err) options).fetched = true := by
  have hout : (listElem key st.pending_requests && !options.force_refresh)
      = false := by
    rcases hp with h | h <;> simp [h]
  have ha2 : (¬ st.minute_request_limit ≤
        (st.request_timestamps.filter
          (fun t => decide (now - t < windowSizeMs))).length)
      ∨ options.critical = true := by
    rcases hAdm with h | h
    · left
      simp only [cleanup_expired_timestamps] at h
      omega
    · right; exact h
  rcases hcache : dictGet st.cache key with _ | e
  · refine ⟨?_, ?_, ?_⟩
    · intro ce he
      simp at he
    · intro _
      rcases ha2 with h | h <;>
        simp [with_cache, hout, hcache, rate_or_fetch, has_reached_rate_limit,
          cleanup_expired_timestamps, h, do_fetch, markPending, record_request,
          clearPending]
    · rcases ha2 with h | h <;>
        simp [with_cache, hout, hcache, rate_or_fetch, has_reached_rate_limit,
          cleanup_expired_timestamps, h, do_fetch, markPending, record_request,
          clearPending]
  · have hhit : (!options.force_refresh && !is_expired now e) = false := by
      rcases hnohit e hcache with h | h <;> simp [h]
    refine ⟨?_, ?_, ?_⟩
    · intro ce he hfb
      cases he
      rcases ha2 with h | h <;>
        simp [with_cache, hout, hcache, hhit, rate_or_fetch,
          has_reached_rate_limit, cleanup_expired_timestamps, h, do_fetch,
          markPending, record_request, clearPending, hfb]
    · rintro (he | hfb)
      · simp at he
      · rcases ha2 with h | h <;>
          simp [with_cache, hout, hcache, hhit, rate_or_fetch,
            has_reached_rate_limit, cleanup_expired_timestamps, h, do_fetch,
            markPending, record_request, clearPending, hfb]
    · rcases ha2 with h | h <;>
        cases hfb : options.fallback_to_cache <;>
        simp [with_cache, hout, hcache, hhit, rate_or_fetch,
          has_reached_rate_limit, cleanup_expired_timestamps, h, do_fetch,
          markPending, record_request, clearPending, hfb]

/-- C2 witness: the spec scenario — key `"p"` cached with ttl 1000 ms at
t = 0, upstream fails on a forced refresh at t = 2000 ms with fallback on;
the original stale value 7 is returned with no error. -/
theorem c2_fetch_failure_fallback_witness :
    (with_cache stScen2 2000 "p" (Except.error 3)
        { force_refresh := true }).result = Except.ok (some 7) :=
  ((c2_fetch_failure_fallback stScen2 2000 "p" 3 { force_refresh := true }
      (Or.inr rfl) (fun _ _ => Or.inl rfl) (Or.inl (by decide))).1
    ⟨7, 0, 1000⟩ rfl rfl)

/-- C7 counterexample: with `fail_silently := true`, no cache entry, an
idle ledger and a failing fetch, the call propagates the upstream error —
it does not return `None`. -/
theorem c7_fail_silently_counterexample :
    (with_cache stEmpty 0 "k" (Except.error 7)
        { fail_silently := true }).result
      = Except.error (CacheError.upstream 7)
    ∧ ¬ ((with_cache stEmpty 0 "k" (Except.error 7)
        { fail_silently := true }).result = Except.ok none) :=
  ⟨by decide, by decide⟩

/-- C7 amended: with `fail_silently` true, no cache entry and the rate
limit not reached, a failing fetch is attempted and its error is
propagated to the caller; `fail_silently` silences only the rate-limit
branch, not upstream fetch failures. -/
theorem c7_upstream_error_propagated {A : Type} (st : SyncState A)
    (now : Int) (key : String) (err : Nat) (options : CacheOptions)
    (hp : listElem key st.pending_requests = false)
    (hn : dictGet st.cache key = none)
    (hs : options.fail_silently = true)
    (hAdm : (cleanup_expired_timestamps now st.request_timestamps).length
        < st.minute_request_limit ∨ options.critical = true) :
    (with_cache st now key (Except.error err) options).result
      = Except.error (CacheError.upstream err) := by
  have ha2 : (¬ st.minute_request_limit ≤
        (st.request_timestamps.filter
          (fun t => decide (now - t < windowSizeMs))).length)
      ∨ options.critical = true := by
    rcases hAdm with h | h
    · left
      simp only [cleanup_expired_timestamps] at h
      omega
    · right; exact h
  rcases ha2 with h | h <;>
    simp [with_cache, hp, hn, rate_or_fetch, has_reached_rate_limit,
      cleanup_expired_timestamps, h, do_fetch, markPending, record_request,
      clearPending]

/-- C7 amended witness: concrete empty state, limit 5, silent options, the
upstream error code 7 comes back out. -/
theorem c7_upstream_error_propagated_witness :
    (with_cache stEmpty 5 "k" (Except.error 7)
        { fail_silently := true }).result
      = Except.error (CacheError.upstream 7) :=
  c7_upstream_error_propagated stEmpty 5 "k" 7 { fail_silently := true }
    rfl rfl rfl (Or.inl (by decide))

/-- C3: dumping the service state (`_persist_cache`) and reloading it
(`_initialize_cache`) at the same logical time yields exactly the
non-expired entries (those with `expires_at` not in the past) and exactly
the ledger timestamps `t` with `now - t < W`; pending requests restart
empty.  The hypothesis that cache keys are unique is the Python dict
invariant. -/
theorem c3_snapshot_roundtrip {A : Type} (st : SyncState A) (now : Int)
    (hnd : (st.cache.map Prod.fst).Nodup) :
    initialize_cache (persist_cache st now) now st.minute_request_limit
      = { cache := st.cache.filter (fun p => !is_expired now p.2)
        , pending_requests := []
        , request_timestamps :=
            st.request_timestamps.filter
              (fun t => decide (now - t < windowSizeMs))
        , minute_request_limit := st.minute_request_limit } := by
  unfold initialize_cache persist_cache
  rw [restore_entries_eq now st.cache [] hnd (fun _ _ => rfl)]
  rfl

/-- C3 witness: a concrete round-trip at t = 200 drops the entry expired at
t = 100 and keeps the in-window timestamps. -/
theorem c3_snapshot_roundtrip_witness :
    initialize_cache (persist_cache stRound 200) 200
        stRound.minute_request_limit
      = { cache := stRound.cache.filter (fun p => !is_expired 200 p.2)
        , pending_requests := []
        , request_timestamps :=
            stRound.request_timestamps.filter
              (fun t => decide (200 - t < windowSizeMs))
        , minute_request_limit := stRound.minute_request_limit } :=
  c3_snapshot_roundtrip stRound 200 (by decide)

end TaoCache
